import Mathlib

/-!
Shallow embedding of the liquidity-grab pattern-detection core of
`src/dashboard_simple.py` (functions `find_swing_low`, `detect_liquidity_grab`,
`get_alerts`), together with theorems settling the frozen claims about it.

Prices are modelled as exact rationals (ℚ); a dataframe row is a `Bar` with the
four OHLC columns the source reads; positional indexing (`df['Low'].iloc[i]`)
becomes `List.getD` on the projected column (the default value is never reached
at in-range indices, which every access in the source is guarded to be).
-/

/-- One row of the price dataframe: the four OHLC columns that
`detect_liquidity_grab` and `find_swing_low` read. -/
structure Bar where
  Open : ℚ
  High : ℚ
  Low : ℚ
  Close : ℚ
deriving DecidableEq, Repr

/-- The `Low` column of the dataframe, as the source's `df['Low']`. -/
def lowList (df : List Bar) : List ℚ := df.map Bar.Low

/-- The `Close` column of the dataframe, as the source's `df['Close']`. -/
def closeList (df : List Bar) : List ℚ := df.map Bar.Close

/-- `df['Low'].iloc[i]`. -/
def lowAt (df : List Bar) (i : ℕ) : ℚ := (lowList df).getD i 0

/-- `df['Close'].iloc[i]`. -/
def closeAt (df : List Bar) (i : ℕ) : ℚ := (closeList df).getD i 0

/-- Module-level constant `SWING_LEFT = 2` of the source. -/
def SWING_LEFT : ℕ := 2

/-- Module-level constant `SWING_RIGHT = 2` of the source. -/
def SWING_RIGHT : ℕ := 2

/-- Core of `find_swing_low`, phrased over the `Low` column (the only column the
source function reads).  Mirrors the guard
`if idx < left or idx >= len(df) - right: return False` and the two loops
`for i in range(1, left+1): if df['Low'].iloc[idx-i] <= current_low: return False`
(and symmetrically on the right): the loops return `False` as soon as a
neighbour's low is `<=` the candidate's low, so the function returns `True`
exactly when every neighbour in both windows fails that test. -/
def swingLowCheck (lows : List ℚ) (idx left right : ℕ) : Bool :=
  if idx < left ∨ lows.length - right ≤ idx then false
  else
    ((List.range' 1 left).all fun i => !(lows.getD (idx - i) 0 ≤ lows.getD idx 0 : Bool)) &&
    ((List.range' 1 right).all fun i => !(lows.getD (idx + i) 0 ≤ lows.getD idx 0 : Bool))

/-- `find_swing_low(df, idx, left, right)` of the source. -/
def find_swing_low (df : List Bar) (idx left right : ℕ) : Bool :=
  swingLowCheck (lowList df) idx left right

/-- A detected liquidity-grab occurrence (the spec's GrabEvent).  In the source
the triggering bar gets `liq_grab = True` and `grab_depth = depth`, and the
referenced swing low is the `(swing_idx, swing_low)` pair at which the inner
loop `break`s; `close_price` is the `Close` value the alert row reports. -/
structure GrabEvent where
  bar_index : ℕ
  swing_index : ℕ
  depth_percent : ℚ
  close_price : ℚ
deriving DecidableEq, Repr

/-- The `swing_lows` list built by
`for i in range(SWING_LEFT, len(df) - SWING_RIGHT): if find_swing_low(...):
swing_lows.append((i, df['Low'].iloc[i]))`, over the `Low` column. -/
def swingLowsCore (lows : List ℚ) : List (ℕ × ℚ) :=
  (List.range' SWING_LEFT (lows.length - SWING_RIGHT - SWING_LEFT)).filterMap fun i =>
    if swingLowCheck lows i SWING_LEFT SWING_RIGHT then some (i, lows.getD i 0) else none

/-- `swing_lows` as computed inside `detect_liquidity_grab`. -/
def swing_lows (df : List Bar) : List (ℕ × ℚ) := swingLowsCore (lowList df)

/-- The inner loop `for swing_idx, swing_low in swing_lows:` of
`detect_liquidity_grab`, for one bar `idx`: it skips swing lows with
`swing_idx >= idx` or `swing_idx < idx - 50`; on the first one with
`current_low < swing_low and current_close > swing_low` whose
`depth = (swing_low - current_low) / swing_low * 100` exceeds `0.05` it sets
the flags and `break`s (modelled as returning the event); a swing low whose
depth fails the threshold does not break the loop. -/
def grabScan (lows closes : List ℚ) (idx : ℕ) : List (ℕ × ℚ) → Option GrabEvent
  | [] => none
  | (s, v) :: rest =>
    if idx ≤ s then grabScan lows closes idx rest
    else if s < idx - 50 then grabScan lows closes idx rest
    else if lows.getD idx 0 < v ∧ v < closes.getD idx 0 then
      if (5 : ℚ) / 100 < (v - lows.getD idx 0) / v * 100 then
        some ⟨idx, s, (v - lows.getD idx 0) / v * 100, closes.getD idx 0⟩
      else grabScan lows closes idx rest
    else grabScan lows closes idx rest

/-- Core of `detect_liquidity_grab` over the two columns it reads.  Mirrors the
early exit `if len(df) < 20: return df` (no annotation columns, hence no
alerts), the swing-low collection pass, and the outer loop
`for idx in range(len(df)):` with `if idx < SWING_LEFT + SWING_RIGHT: continue`;
each bar contributes at most the one event at which its inner loop breaks. -/
def grabCore (lows closes : List ℚ) : List GrabEvent :=
  if lows.length < 20 then []
  else
    (List.range lows.length).filterMap fun idx =>
      if idx < SWING_LEFT + SWING_RIGHT then none
      else grabScan lows closes idx (swingLowsCore lows)

/-- `detect_liquidity_grab(df)` composed with the event extraction of
`get_alerts` (the rows with `liq_grab == True`, in ascending index order),
i.e. the classifier of the spec: series in, ordered grab events out. -/
def detect_liquidity_grab (df : List Bar) : List GrabEvent :=
  grabCore (lowList df) (closeList df)

/-! ### Heap model of the dataframe mutation performed by the source

The source receives a pandas DataFrame (a mutable object), immediately
rebinds `df = df.copy()`, adds three annotation columns to the copy, and all
subsequent `df.iloc[...] = ...` writes go to the copy.  To state the
frame/no-mutation claim we model the object store explicitly: a heap is a list
of dataframes and a reference is an index into it; `df.copy()` allocates a
fresh cell at the end of the heap, and every column write is an update of the
heap at the written reference. -/

/-- The tabular structure the source mutates: the input bars plus the three
annotation columns created at the start of `detect_liquidity_grab`
(`df['swing_low'] = None`, `df['liq_grab'] = False`, `df['grab_depth'] = 0.0`). -/
structure DataFrame where
  bars : List Bar
  swing_col : List (Option ℚ)
  liq_grab : List Bool
  grab_depth : List ℚ
deriving DecidableEq, Repr

instance : Inhabited DataFrame := ⟨⟨[], [], [], []⟩⟩

/-- The object store: heap cells hold dataframes, references are positions. -/
abbrev Heap := List DataFrame

/-- `df.copy()` followed by the three column initialisations of the source
(lines 90–93): same bars, all-`None` swing column, all-`False` grab flags,
all-zero depths. -/
def initAnnotated (d : DataFrame) : DataFrame :=
  { bars := d.bars
    swing_col := List.replicate d.bars.length none
    liq_grab := List.replicate d.bars.length false
    grab_depth := List.replicate d.bars.length 0 }

/-- One `df.iloc[i, df.columns.get_loc(col)] = value` statement of the source:
a single-cell write into one of the three annotation columns. -/
inductive ColWrite
  | swingCell (i : ℕ) (v : ℚ)
  | grabCell (i : ℕ)
  | depthCell (i : ℕ) (v : ℚ)
deriving DecidableEq, Repr

/-- Apply one cell write to a dataframe. -/
def applyWrite (d : DataFrame) : ColWrite → DataFrame
  | .swingCell i v => { d with swing_col := d.swing_col.set i (some v) }
  | .grabCell i => { d with liq_grab := d.liq_grab.set i true }
  | .depthCell i v => { d with grab_depth := d.grab_depth.set i v }

/-- The sequence of cell writes `detect_liquidity_grab` performs, in source
order: the swing-low loop writes `swing_low` at each detected swing index
(line 100), then the grab loop writes `liq_grab` and `grab_depth` at each
triggering bar (lines 120–121). -/
def detectWrites (bars : List Bar) : List ColWrite :=
  ((swing_lows bars).map fun p => ColWrite.swingCell p.1 p.2) ++
  ((detect_liquidity_grab bars).map fun e =>
    [ColWrite.grabCell e.bar_index, ColWrite.depthCell e.bar_index e.depth_percent]).flatten

/-- Write one cell of the dataframe held at reference `rc`. -/
def heapWrite (h : Heap) (rc : ℕ) (w : ColWrite) : Heap :=
  h.set rc (applyWrite ((h.get? rc).getD default) w)

/-- `detect_liquidity_grab` at the heap level: read the dataframe at reference
`r`; if it is shorter than 20 bars return it unchanged (`return df` without
copying); otherwise allocate the annotated copy as a fresh cell and perform all
column writes on that fresh reference, which is returned. -/
def detect_py (h : Heap) (r : ℕ) : Heap × ℕ :=
  if ((h.get? r).getD default).bars.length < 20 then (h, r)
  else
    ((detectWrites ((h.get? r).getD default).bars).foldl (fun hh w => heapWrite hh h.length w)
      (h ++ [initAnnotated ((h.get? r).getD default)]), h.length)

/-! ### Concrete series used by scenario claims and witnesses -/

/-- A flat bar: low 100, close 100. -/
def flatBar : Bar := ⟨100, 101, 100, 100⟩

/-- The spec's 25-bar scenario: flat at low 100 except bar 10 (low 95) and
bar 15 (low 94, close 96). -/
def series25 : List Bar :=
  [flatBar, flatBar, flatBar, flatBar, flatBar, flatBar, flatBar, flatBar, flatBar, flatBar,
   ⟨100, 101, 95, 100⟩, flatBar, flatBar, flatBar, flatBar,
   ⟨100, 101, 94, 96⟩, flatBar, flatBar, flatBar, flatBar,
   flatBar, flatBar, flatBar, flatBar, flatBar]

/-- A 19-bar series carrying the same grab pattern as `series25`: below the
20-bar floor, so it must produce no events. -/
def series19 : List Bar :=
  [flatBar, flatBar, flatBar, flatBar, flatBar, flatBar, flatBar, flatBar, flatBar, flatBar,
   ⟨100, 101, 95, 100⟩, flatBar, flatBar, flatBar, flatBar,
   ⟨100, 101, 94, 96⟩, flatBar, flatBar, flatBar]

/-- Lows `[1, 1, 2, 1, 1]`: bar 2's low strictly exceeds all four neighbouring
lows, making it a local maximum of lows. -/
def dfBump : List Bar :=
  [⟨1, 3, 1, 2⟩, ⟨1, 3, 1, 2⟩, ⟨2, 3, 2, 2⟩, ⟨1, 3, 1, 2⟩, ⟨1, 3, 1, 2⟩]

/-- 20 identical bars; differs from `seriesB` only in open/high. -/
def seriesA : List Bar := List.replicate 20 ⟨1, 5, 2, 3⟩

/-- 20 identical bars; same lows/closes as `seriesA`, different open/high. -/
def seriesB : List Bar := List.replicate 20 ⟨7, 9, 2, 3⟩

/-- A one-cell heap holding the scenario series with empty annotation columns. -/
def heap0 : Heap := [⟨series25, [], [], []⟩]

/-! ### Helper lemmas -/

/-- Characterisation of the swing-low check: the guard places the window
entirely inside the series, and the two loops demand the candidate low be
strictly below every neighbour's low on each side. -/
lemma swingLowCheck_iff (lows : List ℚ) (idx left right : ℕ) :
    swingLowCheck lows idx left right = true ↔
      left ≤ idx ∧ idx < lows.length - right ∧
      (∀ j, 1 ≤ j → j ≤ left → lows.getD idx 0 < lows.getD (idx - j) 0) ∧
      (∀ j, 1 ≤ j → j ≤ right → lows.getD idx 0 < lows.getD (idx + j) 0) := by
  unfold swingLowCheck
  by_cases hg : idx < left ∨ lows.length - right ≤ idx
  · rw [if_pos hg]
    simp only [Bool.false_eq_true, false_iff]
    rintro ⟨h1, h2, -⟩
    omega
  · rw [if_neg hg]
    push_neg at hg
    simp only [Bool.and_eq_true, List.all_eq_true, List.mem_range'_1, Bool.not_eq_true',
      decide_eq_false_iff_not, not_le]
    constructor
    · rintro ⟨hL, hR⟩
      exact ⟨hg.1, hg.2, fun j h1 h2 => hL j ⟨h1, by omega⟩, fun j h1 h2 => hR j ⟨h1, by omega⟩⟩
    · rintro ⟨-, -, hL, hR⟩
      exact ⟨fun i hi => hL i hi.1 (by omega), fun i hi => hR i hi.1 (by omega)⟩

/-- A pair is in the collected `swing_lows` list exactly when its index passes
the swing-low check and its value is that bar's low. -/
lemma mem_swingLowsCore {lows : List ℚ} {s : ℕ} {v : ℚ} :
    (s, v) ∈ swingLowsCore lows ↔
      swingLowCheck lows s SWING_LEFT SWING_RIGHT = true ∧ v = lows.getD s 0 := by
  unfold swingLowsCore
  rw [List.mem_filterMap]
  constructor
  · rintro ⟨i, hi, hfi⟩
    by_cases hc : swingLowCheck lows i SWING_LEFT SWING_RIGHT
    · rw [if_pos hc] at hfi
      injection hfi with hfi
      injection hfi with h1 h2
      subst h1
      subst h2
      exact ⟨hc, rfl⟩
    · rw [if_neg hc] at hfi
      cases hfi
  · rintro ⟨hc, rfl⟩
    refine ⟨s, ?_, by rw [if_pos hc]⟩
    rw [List.mem_range'_1]
    obtain ⟨h1, h2, -, -⟩ := (swingLowCheck_iff lows s SWING_LEFT SWING_RIGHT).1 hc
    unfold SWING_LEFT SWING_RIGHT at *
    omega

/-- The collected swing lows are strictly increasing in index (they come from a
filter of `range`). -/
lemma swingLowsCore_pairwise (lows : List ℚ) :
    (swingLowsCore lows).Pairwise (fun a b => a.1 < b.1) := by
  unfold swingLowsCore
  refine List.Pairwise.filterMap _ ?_ (List.pairwise_lt_range' _ _)
  intro a b hab x hx y hy
  rw [Option.mem_def] at hx hy
  split at hx
  · split at hy
    · injection hx with hx
      injection hy with hy
      rw [← hx, ← hy]
      exact hab
    · cases hy
  · cases hx

/-- What holds of any event the inner scan returns: the event records the
scanned bar and its close, and refers to a scanned swing-low pair strictly in
the past, within 50 bars, pierced by the bar's low, recovered by its close,
with the recorded depth above the threshold. -/
lemma grabScan_eq_some {lows closes : List ℚ} {idx : ℕ} {e : GrabEvent} :
    ∀ {sls : List (ℕ × ℚ)}, grabScan lows closes idx sls = some e →
      e.bar_index = idx ∧ e.close_price = closes.getD idx 0 ∧
      ∃ v, (e.swing_index, v) ∈ sls ∧ e.swing_index < idx ∧ idx - e.swing_index ≤ 50 ∧
        lows.getD idx 0 < v ∧ v < closes.getD idx 0 ∧
        e.depth_percent = (v - lows.getD idx 0) / v * 100 ∧
        (5 : ℚ) / 100 < e.depth_percent := by
  intro sls
  induction sls with
  | nil => intro h; cases h
  | cons p rest ih =>
    obtain ⟨s, v⟩ := p
    intro h
    simp only [grabScan] at h
    split_ifs at h with h1 h2 h3 h4
    · obtain ⟨hb, hc, v', hmem, hrest⟩ := ih h
      exact ⟨hb, hc, v', List.mem_cons_of_mem _ hmem, hrest⟩
    · obtain ⟨hb, hc, v', hmem, hrest⟩ := ih h
      exact ⟨hb, hc, v', List.mem_cons_of_mem _ hmem, hrest⟩
    · injection h with h
      subst h
      refine ⟨rfl, rfl, v, List.mem_cons_self _ _, ?_, ?_, h3.1, h3.2, rfl, h4⟩
      · show s < idx
        omega
      · show idx - s ≤ 50
        omega
    · obtain ⟨hb, hc, v', hmem, hrest⟩ := ih h
      exact ⟨hb, hc, v', List.mem_cons_of_mem _ hmem, hrest⟩
    · obtain ⟨hb, hc, v', hmem, hrest⟩ := ih h
      exact ⟨hb, hc, v', List.mem_cons_of_mem _ hmem, hrest⟩

/-- Minimality of the break: when the scanned list is strictly increasing in
index, the returned event's swing index is `≤` the index of every scanned pair
that satisfies all the grab conditions (window, wick, close, depth).  In
particular a pair that passes the wick test but fails the depth threshold does
not stop the scan: only a fully qualifying pair can be the one returned. -/
lemma grabScan_min {lows closes : List ℚ} {idx : ℕ} {e : GrabEvent} :
    ∀ {sls : List (ℕ × ℚ)}, sls.Pairwise (fun a b => a.1 < b.1) →
      grabScan lows closes idx sls = some e →
      ∀ p ∈ sls, p.1 < idx → idx - p.1 ≤ 50 →
        lows.getD idx 0 < p.2 → p.2 < closes.getD idx 0 →
        (5 : ℚ) / 100 < (p.2 - lows.getD idx 0) / p.2 * 100 →
        e.swing_index ≤ p.1 := by
  intro sls
  induction sls with
  | nil => intro _ h; cases h
  | cons q rest ih =>
    obtain ⟨s, v⟩ := q
    intro hp h p hmem w1 w2 w3 w4 w5
    have hhead : ∀ q ∈ rest, (s, v).1 < q.1 := fun q hq => List.rel_of_pairwise_cons hp hq
    have hrest := List.Pairwise.of_cons hp
    simp only [grabScan] at h
    rcases List.mem_cons.mp hmem with rfl | hmem'
    · replace w1 : s < idx := w1
      replace w2 : idx - s ≤ 50 := w2
      replace w3 : lows.getD idx 0 < v := w3
      replace w4 : v < closes.getD idx 0 := w4
      replace w5 : (5 : ℚ) / 100 < (v - lows.getD idx 0) / v * 100 := w5
      split_ifs at h with h1 h2 h3
      · omega
      · omega
      · injection h with h
        subst h
        exact Nat.le_refl s
      · exact absurd ⟨w3, w4⟩ h3
    · split_ifs at h with h1 h2 h3 h4
      · exact ih hrest h p hmem' w1 w2 w3 w4 w5
      · exact ih hrest h p hmem' w1 w2 w3 w4 w5
      · injection h with h
        subst h
        exact le_of_lt (hhead p hmem')
      · exact ih hrest h p hmem' w1 w2 w3 w4 w5
      · exact ih hrest h p hmem' w1 w2 w3 w4 w5

/-- Unpacking membership in the classifier's output: the series is at least 20
bars long, the bar index is past the first `SWING_LEFT + SWING_RIGHT` bars,
and the event is what the inner scan over the collected swing lows returned. -/
lemma mem_detect {df : List Bar} {e : GrabEvent} (h : e ∈ detect_liquidity_grab df) :
    20 ≤ df.length ∧ SWING_LEFT + SWING_RIGHT ≤ e.bar_index ∧
    grabScan (lowList df) (closeList df) e.bar_index (swingLowsCore (lowList df)) = some e := by
  unfold detect_liquidity_grab grabCore at h
  have hlen : (lowList df).length = df.length := List.length_map _ _
  by_cases h20 : (lowList df).length < 20
  · rw [if_pos h20] at h
    cases h
  · rw [if_neg h20] at h
    rw [List.mem_filterMap] at h
    obtain ⟨idx, hidx, hf⟩ := h
    by_cases hs : idx < SWING_LEFT + SWING_RIGHT
    · rw [if_pos hs] at hf
      cases hf
    · rw [if_neg hs] at hf
      have hbar : e.bar_index = idx := (grabScan_eq_some hf).1
      rw [hbar]
      exact ⟨by omega, by omega, hf⟩

/-- A `filterMap` over a list that hits `some` exactly at the single occurrence
of `a` collapses to the one value produced there. -/
lemma filterMap_single {α β : Type} [DecidableEq α] (f : α → Option β) (a : α) (e : β) :
    ∀ (l : List α), (∀ x ∈ l, x = a ∨ f x = none) → f a = some e → l.count a = 1 →
      l.filterMap f = [e] := by
  intro l
  induction l with
  | nil => intro _ _ hc; simp at hc
  | cons x l ih =>
    intro hall he hc
    by_cases hxa : x = a
    · subst hxa
      have hc0 : l.count x = 0 := by
        rw [List.count_cons_self] at hc
        omega
      have hnm : x ∉ l := List.count_eq_zero.mp hc0
      rw [List.filterMap_cons_some he]
      have : l.filterMap f = [] := by
        rw [List.filterMap_eq_nil_iff]
        intro y hy
        rcases hall y (List.mem_cons_of_mem _ hy) with rfl | hnone
        · exact absurd hy hnm
        · exact hnone
      rw [this]
    · have hfx : f x = none := (hall x (List.mem_cons_self _ _)).resolve_left hxa
      rw [List.filterMap_cons_none hfx]
      refine ih (fun y hy => hall y (List.mem_cons_of_mem _ hy)) he ?_
      rwa [List.count_cons_of_ne (fun h => hxa h.symm)] at hc

/-- Full evaluation of the classifier on the 25-bar scenario series: exactly
one event, at bar 15, referencing the swing low at bar 10, with
depth `(95 − 94) / 95 × 100` and close 96. -/
lemma detect_series25_eq :
    detect_liquidity_grab series25 = [⟨15, 10, (95 - 94) / 95 * 100, 96⟩] := by
  unfold detect_liquidity_grab grabCore
  rw [if_neg (by decide)]
  refine filterMap_single _ 15 _ _ (by decide) ?_ (by decide)
  show (if 15 < SWING_LEFT + SWING_RIGHT then none
        else grabScan (lowList series25) (closeList series25) 15
          (swingLowsCore (lowList series25))) = _
  rw [if_neg (by decide),
    show swingLowsCore (lowList series25) = [(10, 95), (15, 94)] from by decide]
  simp only [grabScan]
  rw [if_neg (by decide), if_neg (by decide),
    show (lowList series25).getD 15 0 = 94 from by decide,
    show (closeList series25).getD 15 0 = 96 from by decide,
    if_pos (by norm_num), if_pos (by norm_num)]

/-- Folding any sequence of cell writes aimed at reference `rc` leaves every
other reference's cell untouched. -/
lemma foldl_heapWrite_get? (ws : List ColWrite) (rc r : ℕ) (hne : r ≠ rc) :
    ∀ hh : Heap, (ws.foldl (fun hh w => heapWrite hh rc w) hh).get? r = hh.get? r := by
  induction ws with
  | nil => intro hh; rfl
  | cons w ws ih =>
    intro hh
    rw [List.foldl_cons, ih]
    exact List.get?_set_ne _ _ (fun h => hne h.symm)

/-- `s` fully qualifies as a grab reference for bar `idx` of `df`: it is a
detected swing low, strictly in the past, within the 50-bar lookback, its
level is pierced by the bar's low and recovered by the bar's close, and the
resulting depth clears the `0.05` threshold. -/
def qualifies (df : List Bar) (idx s : ℕ) : Prop :=
  find_swing_low df s SWING_LEFT SWING_RIGHT = true ∧
  s < idx ∧ idx - s ≤ 50 ∧
  lowAt df idx < lowAt df s ∧ lowAt df s < closeAt df idx ∧
  (5 : ℚ) / 100 < (lowAt df s - lowAt df idx) / lowAt df s * 100

/-! ### Claim theorems -/

/-- C1: for every price series and window parameters `left ≥ 1`, `right ≥ 1`,
`find_swing_low` marks bar `i` as a swing low iff `left ≤ i < N − right` and
bar `i`'s low is strictly less than the low of each of the `left` preceding
and each of the `right` following bars; in particular ties disqualify, and
bars with `i < left` or `i ≥ N − right` are never marked. -/
theorem swing_low_marking_iff (df : List Bar) (i left right : ℕ)
    (hleft : 1 ≤ left) (hright : 1 ≤ right) :
    find_swing_low df i left right = true ↔
      left ≤ i ∧ i < df.length - right ∧
      (∀ j, 1 ≤ j → j ≤ left → lowAt df i < lowAt df (i - j)) ∧
      (∀ j, 1 ≤ j → j ≤ right → lowAt df i < lowAt df (i + j)) := by
  unfold find_swing_low lowAt
  rw [swingLowCheck_iff, show (lowList df).length = df.length from List.length_map _ _]

/-- Witness for C1 at the scenario series, `i = 10`, `left = right = 2`. -/
theorem swing_low_marking_iff_witness :
    (1 ≤ 2 ∧ 1 ≤ 2) ∧
    (find_swing_low series25 10 2 2 = true ↔
      2 ≤ 10 ∧ 10 < series25.length - 2 ∧
      (∀ j, 1 ≤ j → j ≤ 2 → lowAt series25 10 < lowAt series25 (10 - j)) ∧
      (∀ j, 1 ≤ j → j ≤ 2 → lowAt series25 10 < lowAt series25 (10 + j))) :=
  ⟨⟨by decide, by decide⟩, swing_low_marking_iff series25 10 2 2 (by decide) (by decide)⟩

/-- C2: every emitted grab event has the triggering bar's low strictly below
the referenced swing low's value, its close strictly above that value, and its
recorded depth equal to `(swing_low − bar_low) / swing_low × 100` and strictly
greater than the `0.05` minimum. -/
theorem grab_event_wick_close_depth (df : List Bar) (e : GrabEvent)
    (h : e ∈ detect_liquidity_grab df) :
    lowAt df e.bar_index < lowAt df e.swing_index ∧
    lowAt df e.swing_index < closeAt df e.bar_index ∧
    e.depth_percent =
      (lowAt df e.swing_index - lowAt df e.bar_index) / lowAt df e.swing_index * 100 ∧
    (5 : ℚ) / 100 < e.depth_percent := by
  obtain ⟨-, -, hscan⟩ := mem_detect h
  obtain ⟨-, -, v, hmem, -, -, hwick, hclose, hdepth, hthr⟩ := grabScan_eq_some hscan
  obtain ⟨-, hv⟩ := mem_swingLowsCore.mp hmem
  subst hv
  exact ⟨hwick, hclose, hdepth, hthr⟩

/-- Witness for C2 at the scenario series and its single event. -/
theorem grab_event_wick_close_depth_witness :
    (⟨15, 10, (95 - 94) / 95 * 100, 96⟩ : GrabEvent) ∈ detect_liquidity_grab series25 ∧
    (lowAt series25 15 < lowAt series25 10 ∧
     lowAt series25 10 < closeAt series25 15 ∧
     ((95 : ℚ) - 94) / 95 * 100 = (lowAt series25 10 - lowAt series25 15) / lowAt series25 10 * 100 ∧
     (5 : ℚ) / 100 < (95 - 94) / 95 * 100) := by
  have hm : (⟨15, 10, (95 - 94) / 95 * 100, 96⟩ : GrabEvent) ∈ detect_liquidity_grab series25 := by
    rw [detect_series25_eq]
    exact List.mem_singleton.mpr rfl
  exact ⟨hm, grab_event_wick_close_depth series25 _ hm⟩

/-- C3: every emitted event references the smallest (earliest) swing-low index
that fully qualifies for its bar — eligibility window plus wick/close test
plus depth threshold — and the recorded depth is computed against that swing
low; a swing low that passes the wick/close test but fails the depth
threshold does not stop the scan, since minimality is over fully qualifying
indices only. -/
theorem grab_event_first_qualifying (df : List Bar) (e : GrabEvent)
    (h : e ∈ detect_liquidity_grab df) :
    qualifies df e.bar_index e.swing_index ∧
    (∀ s, qualifies df e.bar_index s → e.swing_index ≤ s) ∧
    e.depth_percent =
      (lowAt df e.swing_index - lowAt df e.bar_index) / lowAt df e.swing_index * 100 := by
  obtain ⟨-, -, hscan⟩ := mem_detect h
  obtain ⟨-, -, v, hmem, hlt, hwin, hwick, hclose, hdepth, hthr⟩ := grabScan_eq_some hscan
  obtain ⟨hsw, hv⟩ := mem_swingLowsCore.mp hmem
  subst hv
  refine ⟨⟨hsw, hlt, hwin, hwick, hclose, ?_⟩, ?_, hdepth⟩
  · show (5 : ℚ) / 100 <
      ((lowList df).getD e.swing_index 0 - (lowList df).getD e.bar_index 0) /
        (lowList df).getD e.swing_index 0 * 100
    rw [← hdepth]
    exact hthr
  intro s hq
  obtain ⟨hq1, hq2, hq3, hq4, hq5, hq6⟩ := hq
  exact grabScan_min (swingLowsCore_pairwise _) hscan (s, lowAt df s)
    (mem_swingLowsCore.mpr ⟨hq1, rfl⟩) hq2 hq3 hq4 hq5 hq6

/-- Witness for C3 at the scenario series and its single event. -/
theorem grab_event_first_qualifying_witness :
    (⟨15, 10, (95 - 94) / 95 * 100, 96⟩ : GrabEvent) ∈ detect_liquidity_grab series25 ∧
    (qualifies series25 15 10 ∧
     (∀ s, qualifies series25 15 s → 10 ≤ s) ∧
     ((95 : ℚ) - 94) / 95 * 100 = (lowAt series25 10 - lowAt series25 15) / lowAt series25 10 * 100) := by
  have hm : (⟨15, 10, (95 - 94) / 95 * 100, 96⟩ : GrabEvent) ∈ detect_liquidity_grab series25 := by
    rw [detect_series25_eq]
    exact List.mem_singleton.mpr rfl
  exact ⟨hm, grab_event_first_qualifying series25 _ hm⟩

/-- C4: every emitted event references a swing low strictly in the past and at
most 50 bars back: `s < idx` and `idx − s ≤ 50`. -/
theorem grab_event_lookback_bound (df : List Bar) (e : GrabEvent)
    (h : e ∈ detect_liquidity_grab df) :
    e.swing_index < e.bar_index ∧ e.bar_index - e.swing_index ≤ 50 := by
  obtain ⟨-, -, hscan⟩ := mem_detect h
  obtain ⟨-, -, v, -, hlt, hwin, -⟩ := grabScan_eq_some hscan
  exact ⟨hlt, hwin⟩

/-- Witness for C4 at the scenario series and its single event. -/
theorem grab_event_lookback_bound_witness :
    (⟨15, 10, (95 - 94) / 95 * 100, 96⟩ : GrabEvent) ∈ detect_liquidity_grab series25 ∧
    ((10 : ℕ) < 15 ∧ (15 : ℕ) - 10 ≤ 50) := by
  have hm : (⟨15, 10, (95 - 94) / 95 * 100, 96⟩ : GrabEvent) ∈ detect_liquidity_grab series25 := by
    rw [detect_series25_eq]
    exact List.mem_singleton.mpr rfl
  exact ⟨hm, grab_event_lookback_bound series25 _ hm⟩

/-- C5: every series shorter than 20 bars classifies to the empty event
sequence, regardless of its contents. -/
theorem short_series_no_events (df : List Bar) (h : df.length < 20) :
    detect_liquidity_grab df = [] := by
  unfold detect_liquidity_grab grabCore
  rw [if_pos (show (lowList df).length < 20 by rwa [lowList, List.length_map])]

/-- Witness for C5: a 19-bar series containing the very grab pattern that fires
on the 25-bar variant still yields no events. -/
theorem short_series_no_events_witness :
    series19.length < 20 ∧ detect_liquidity_grab series19 = [] :=
  ⟨by decide, short_series_no_events series19 (by decide)⟩

/-- C6 counterexample: bar 2 of `dfBump` has full comparison windows on both
sides and its low strictly exceeds all four neighbouring lows, yet
`find_swing_low` does not mark it — refuting the claim that such a bar is
marked a swing low. -/
theorem swing_low_exceeds_refuted :
    2 ≤ 2 ∧ 2 < dfBump.length - 2 ∧
    lowAt dfBump 0 < lowAt dfBump 2 ∧ lowAt dfBump 1 < lowAt dfBump 2 ∧
    lowAt dfBump 3 < lowAt dfBump 2 ∧ lowAt dfBump 4 < lowAt dfBump 2 ∧
    find_swing_low dfBump 2 2 2 = false := by decide

/-- C6 amended: a bar with full comparison windows whose low is strictly BELOW
(not above) the lows of all its `left` preceding and `right` following
neighbours is marked a swing low, while a bar whose low ties any neighbour's
low is never marked. -/
theorem swing_low_strictly_below_marked :
    (∀ (df : List Bar) (i left right : ℕ),
      left ≤ i → i < df.length - right →
      (∀ j, 1 ≤ j → j ≤ left → lowAt df i < lowAt df (i - j)) →
      (∀ j, 1 ≤ j → j ≤ right → lowAt df i < lowAt df (i + j)) →
      find_swing_low df i left right = true) ∧
    (∀ (df : List Bar) (i left right j : ℕ),
      1 ≤ j →
      (j ≤ left ∧ lowAt df (i - j) = lowAt df i ∨ j ≤ right ∧ lowAt df (i + j) = lowAt df i) →
      find_swing_low df i left right = false) := by
  constructor
  · intro df i left right h1 h2 hL hR
    unfold find_swing_low
    rw [swingLowCheck_iff]
    refine ⟨h1, ?_, hL, hR⟩
    rwa [show (lowList df).length = df.length from List.length_map _ _]
  · intro df i left right j hj htie
    rcases Bool.eq_false_or_eq_true (find_swing_low df i left right) with ht | hf
    · exfalso
      unfold find_swing_low at ht
      obtain ⟨-, -, hL, hR⟩ := (swingLowCheck_iff _ _ _ _).1 ht
      rcases htie with ⟨hjl, he⟩ | ⟨hjr, he⟩
      · have hlt := hL j hj hjl
        have he' : (lowList df).getD (i - j) 0 = (lowList df).getD i 0 := he
        rw [he'] at hlt
        exact lt_irrefl _ hlt
      · have hlt := hR j hj hjr
        have he' : (lowList df).getD (i + j) 0 = (lowList df).getD i 0 := he
        rw [he'] at hlt
        exact lt_irrefl _ hlt
    · exact hf

/-- Witness for the amended C6: bar 10 of the scenario series (strictly below
all neighbours) is marked; bar 5 (tied with its neighbours) is not. -/
theorem swing_low_strictly_below_marked_witness :
    (2 ≤ 10 ∧ 10 < series25.length - 2 ∧ find_swing_low series25 10 2 2 = true) ∧
    (1 ≤ 1 ∧ lowAt series25 (5 - 1) = lowAt series25 5 ∧ find_swing_low series25 5 2 2 = false) := by
  constructor
  · refine ⟨by decide, by decide,
      swing_low_strictly_below_marked.1 series25 10 2 2 (by decide) (by decide) ?_ ?_⟩
    · intro j h1 h2
      interval_cases j <;> decide
    · intro j h1 h2
      interval_cases j <;> decide
  · exact ⟨by decide, by decide,
      swing_low_strictly_below_marked.2 series25 5 2 2 1 (by decide) (Or.inl ⟨by decide, by decide⟩)⟩

/-- C7: on the 25-bar scenario series (flat lows 100 except bar 10 at 95 and
bar 15 at 94 with close 96) the classifier emits exactly one event, at bar 15,
referencing the swing low at bar 10, with depth `(95 − 94) / 95 × 100`. -/
theorem scenario25_single_event :
    detect_liquidity_grab series25 = [⟨15, 10, (95 - 94) / 95 * 100, 96⟩] :=
  detect_series25_eq

/-- C8: classification is a function of the per-bar low/close data alone: two
series with identical lows and closes (whatever their other columns or any
outside context such as a ticker label, which is not even an input of
`detect_liquidity_grab`) classify identically. -/
theorem detect_depends_only_on_low_close (df1 df2 : List Bar)
    (h : df1.map (fun b => (b.Low, b.Close)) = df2.map (fun b => (b.Low, b.Close))) :
    detect_liquidity_grab df1 = detect_liquidity_grab df2 := by
  have h1 : lowList df1 = lowList df2 := by
    have := congrArg (List.map Prod.fst) h
    simpa [List.map_map, lowList, Function.comp] using this
  have h2 : closeList df1 = closeList df2 := by
    have := congrArg (List.map Prod.snd) h
    simpa [List.map_map, closeList, Function.comp] using this
  unfold detect_liquidity_grab
  rw [h1, h2]

/-- Witness for C8: two 20-bar series differing in open/high but not low/close. -/
theorem detect_depends_only_on_low_close_witness :
    seriesA.map (fun b => (b.Low, b.Close)) = seriesB.map (fun b => (b.Low, b.Close)) ∧
    detect_liquidity_grab seriesA = detect_liquidity_grab seriesB :=
  ⟨by decide, detect_depends_only_on_low_close seriesA seriesB (by decide)⟩

/-- C9: the heap-level classifier never mutates the caller's dataframe: the
cell at the input reference is unchanged after the call, and (when the series
is long enough to be annotated at all) the returned reference is the freshly
allocated copy at the end of the heap, so swing/grab/depth annotations live
only in that fresh structure. -/
theorem detect_py_input_preserved (h : Heap) (r : ℕ) (hr : r < h.length) :
    (detect_py h r).1.get? r = h.get? r ∧
    (20 ≤ ((h.get? r).getD default).bars.length → (detect_py h r).2 = h.length) := by
  unfold detect_py
  by_cases h20 : ((h.get? r).getD default).bars.length < 20
  · rw [if_pos h20]
    exact ⟨rfl, fun hc => absurd hc (by omega)⟩
  · rw [if_neg h20]
    refine ⟨?_, fun _ => rfl⟩
    rw [foldl_heapWrite_get? _ _ _ (by omega)]
    exact List.get?_append hr

/-- Witness for C9: a one-cell heap holding the scenario series. -/
theorem detect_py_input_preserved_witness :
    0 < heap0.length ∧
    ((detect_py heap0 0).1.get? 0 = heap0.get? 0 ∧
     (20 ≤ ((heap0.get? 0).getD default).bars.length → (detect_py heap0 0).2 = heap0.length)) :=
  ⟨by decide, detect_py_input_preserved heap0 0 (by decide)⟩

/-- C10: an emitted event's swing reference always lies strictly more than
`SWING_RIGHT` bars before the triggering bar: a swing low inside the
triggering bar's right-hand comparison window would force the triggering
bar's low to be strictly above the swing value, contradicting the wick
condition. -/
theorem grab_reference_outside_right_window (df : List Bar) (e : GrabEvent)
    (h : e ∈ detect_liquidity_grab df) :
    SWING_RIGHT < e.bar_index - e.swing_index := by
  obtain ⟨-, -, hscan⟩ := mem_detect h
  obtain ⟨-, -, v, hmem, hlt, -, hwick, -⟩ := grabScan_eq_some hscan
  obtain ⟨hsw, hv⟩ := mem_swingLowsCore.mp hmem
  subst hv
  by_contra hcon
  push_neg at hcon
  obtain ⟨-, -, -, hR⟩ := (swingLowCheck_iff _ _ _ _).1 hsw
  have hj := hR (e.bar_index - e.swing_index) (by omega) (by omega)
  rw [show e.swing_index + (e.bar_index - e.swing_index) = e.bar_index from by omega] at hj
  exact lt_asymm hj hwick

/-- Witness for C10 at the scenario series and its single event. -/
theorem grab_reference_outside_right_window_witness :
    (⟨15, 10, (95 - 94) / 95 * 100, 96⟩ : GrabEvent) ∈ detect_liquidity_grab series25 ∧
    SWING_RIGHT < 15 - 10 := by
  have hm : (⟨15, 10, (95 - 94) / 95 * 100, 96⟩ : GrabEvent) ∈ detect_liquidity_grab series25 := by
    rw [detect_series25_eq]
    exact List.mem_singleton.mpr rfl
  exact ⟨hm, grab_reference_outside_right_window series25 _ hm⟩
